import Mathlib

/-!
Verification of the media_browser server (src/media_browser.py) against its
specification.  The Python source is shallowly embedded: pure fragments become
Lean functions, filesystem- and subprocess-dependent fragments become functions
over explicit oracles describing the observable state (file existence, mtimes,
sizes, subprocess exit codes), and Python exceptions become Option/Except.
Strings are modelled as lists of Unicode code points (Nat), since Python str
may hold lone surrogates (from os.fsdecode / surrogateescape) that Lean Char
cannot represent; byte strings are lists of Nat below 256.  mtimes and clock
readings (Python floats) are modelled as rationals.
-/

namespace MediaBrowser

/-! ## Transcode job state markers (start_or_reuse_hls_job / on_finish)

A job directory holds zero-byte marker files `incomplete`, `complete`, `error`.
`start_or_reuse_hls_job` touches `incomplete` on a fresh start; the watcher
thread `on_finish` inspects the ffmpeg exit code `rc`:
  rc == 0  -> incomplete_marker.rename(complete_marker)
  rc < 0   -> killed by signal, markers untouched
  rc == 255 -> server killed, markers untouched
  otherwise -> error_marker.touch()   (the incomplete marker is NOT removed)
-/

structure Markers where
  incomplete : Bool
  complete : Bool
  error : Bool
deriving DecidableEq, Repr

/-- Marker state of a fresh job directory right after the first start:
`incomplete_marker.touch()` has run, nothing else. -/
def markersAfterStart : Markers := ⟨true, false, false⟩

/-- Effect of the `on_finish` watcher on the marker files, given the ffmpeg
return code `rc` and the current marker state `m`.  The rc = 0 branch models
`incomplete_marker.rename(complete_marker)` (the source only reaches it with
the incomplete marker present, as in `markersAfterStart`). -/
def on_finish (rc : Int) (m : Markers) : Markers :=
  if rc = 0 then { m with incomplete := false, complete := true }
  else if rc < 0 then m
  else if rc = 255 then m
  else { m with error := true }

/-- Number of marker files present in the job directory. -/
def markerCount (m : Markers) : Nat :=
  (if m.incomplete then 1 else 0) + (if m.complete then 1 else 0) +
    (if m.error then 1 else 0)

/-! ## list-batch entry evaluation (list_batch)

For one request entry, the handler stats the directory (`dir_mtime`), reads the
optional `since` field (`client_mtime = entry.get("since")`), and replies
  missing directory      -> not_modified: False, mtime: null, files: []
  client_mtime truthy and dir_mtime <= since -> not_modified: True
  otherwise              -> not_modified: False with mtime and the file list.
Note the Python condition is `if client_mtime and dir_mtime <= float(client_mtime)`:
a present but zero `since` is falsy and takes the listing branch. -/

structure FileEntry where
  name : List Nat
  isVid : Bool
  mtime : Rat
  size : Nat
deriving DecidableEq, Repr

inductive BatchValue
  | notModified
  | missing
  | listing (mtime : Rat) (files : List FileEntry)
deriving DecidableEq, Repr

/-- Evaluation of one list-batch entry.  `dirMtime` is `none` when the
directory stat raises FileNotFoundError; `since` is the optional client field. -/
def listBatchEntry (dirMtime : Option Rat) (since : Option Rat)
    (files : List FileEntry) : BatchValue :=
  match dirMtime with
  | none => .missing
  | some m =>
    match since with
    | some s => if s ≠ 0 ∧ m ≤ s then .notModified else .listing m files
    | none => .listing m files

/-! ## Thumbnail cache (ensure_thumb)

The observable environment of one `ensure_thumb(appstate, src)` call: whether
`src` is a regular file, whether the destination `dst = thumb_path(src)`
exists with its stat data, the extension class of `src`, and the results the
generators would return.  The outcome records the returned status together
with which generator was invoked and whether the zero-byte failure sentinel
was written at `dst`. -/

structure ThumbEnv where
  srcIsFile : Bool
  srcMtime : Rat
  dstExists : Bool
  dstMtime : Rat
  dstSize : Nat
  srcIsImage : Bool
  srcIsVideo : Bool
  genImageOk : Bool
  genVideoOk : Bool
deriving DecidableEq, Repr

inductive ThumbStatus
  | ok
  | src_not_found
  | error
deriving DecidableEq, Repr

structure ThumbOutcome where
  status : ThumbStatus
  genImageCalled : Bool
  genVideoCalled : Bool
  sentinelWritten : Bool
deriving DecidableEq, Repr

/-- Shallow embedding of `ensure_thumb`.  Status `ok` is the served thumbnail
at `dst`, `src_not_found` surfaces as 404, `error` is the cached-failure /
sentinel result surfacing as 410.  `sentinelWritten` models the
`open(dst, "wb"); f.write(b"")` in the failure branch. -/
def ensure_thumb (e : ThumbEnv) : ThumbOutcome :=
  if ¬ e.srcIsFile then ⟨.src_not_found, false, false, false⟩
  else if e.dstExists ∧ e.srcMtime ≤ e.dstMtime then
    if e.dstSize > 0 then ⟨.ok, false, false, false⟩
    else ⟨.error, false, false, false⟩
  else
    let generated := if e.srcIsImage then e.genImageOk
      else if e.srcIsVideo then e.genVideoOk else false
    if generated then ⟨.ok, e.srcIsImage, !e.srcIsImage && e.srcIsVideo, false⟩
    else ⟨.error, e.srcIsImage, !e.srcIsImage && e.srcIsVideo, true⟩

/-! ## Stream selection (choose_stream) -/

structure StreamInfo where
  codec : String
  index : Nat
deriving DecidableEq, Repr

/-- The `for s in streams: if s.codec in preferred_codecs: return s` loop. -/
def chooseLoop : List StreamInfo → List String → Option StreamInfo
  | [], _ => none
  | s :: rest, preferred => if s.codec ∈ preferred then some s
      else chooseLoop rest preferred

/-- Shallow embedding of `choose_stream`: the loop above, then the fallback
`streams[0] if streams else None`. -/
def choose_stream (streams : List StreamInfo) (preferred : List String) :
    Option StreamInfo :=
  match chooseLoop streams preferred with
  | some s => some s
  | none => streams.head?

/-- Probe result, as in `VideoInfo` of the source (field `audioStreams`
corresponds to the Python field holding the audio stream list). -/
structure VideoInfo where
  ext : String
  video : List StreamInfo
  audioStreams : List StreamInfo
deriving DecidableEq, Repr

/-! ## HLS job registry and reaper (hls_reaper) -/

structure HLSJobRec where
  last_access : Rat
  waited : Bool
deriving DecidableEq, Repr

def HLS_IDLE_TIMEOUT : Rat := 30

/-- One registry entry under one reaper iteration.  When the idle condition
fires, the source runs `kill`/`wait` in a try block whose exception is
swallowed (`except Exception: pass`) — it only affects the subprocess and the
`waited` flag of the record being deleted — and then unconditionally executes
`del hls_jobs[key]`.  `killRaises` records whether kill/wait raised; the
deletion does not depend on it. -/
def reapEntry (now : Rat) (_killRaises : Bool) (j : HLSJobRec) : Option HLSJobRec :=
  if now - j.last_access > HLS_IDLE_TIMEOUT then none
  else some j

/-- One full iteration of the `hls_reaper` loop body over the registry,
modelled as an association list keyed by cache key. -/
def reap_once (now : Rat) (killRaises : String → Bool)
    (jobs : List (String × HLSJobRec)) : List (String × HLSJobRec) :=
  jobs.filterMap fun kj =>
    (reapEntry now (killRaises kj.1) kj.2).map fun j => (kj.1, j)

/-! ## Readiness waiter (wait_for_file_ready)

`deadline = time.monotonic() + timeout`, then the loop polls while
`time.monotonic() < deadline`.  The monotonic clock is modelled as a sequence
of readings `clock : Nat → Rat` (reading 0 computes the deadline, readings
1, 2, … are the loop tests); `ready i` tells whether at poll `i` the path
exists with non-zero size.  The loop is unrolled with fuel; exhausted fuel
returns `false` like a timeout. -/

def waitLoop (ready : Nat → Bool) (clock : Nat → Rat) (deadline : Rat) :
    Nat → Nat → Bool
  | 0, _ => false
  | fuel + 1, i =>
    if clock i < deadline then
      if ready i then true else waitLoop ready clock deadline fuel (i + 1)
    else false

/-- Shallow embedding of `wait_for_file_ready` (the `interval` sleep does not
affect the returned value and is absorbed into the clock sequence). -/
def wait_for_file_ready (ready : Nat → Bool) (clock : Nat → Rat)
    (timeout : Rat) (fuel : Nat) : Bool :=
  waitLoop ready clock (clock 0 + timeout) fuel 1

/-! ## start_hls handler -/

def playlistUrl (key : String) : String := "/hls/" ++ key ++ "/index.m3u8"

inductive HlsResp
  | notFound404
  | errJson (msg : String)
  | playlist (url : String)
deriving DecidableEq, Repr

/-- Shallow embedding of the `start_hls` handler.  Returns the response
together with whether a new ffmpeg subprocess was spawned.  `probeResult`
is `get_video_info(src)`; `completeExists` / `errorExists` are the marker
checks; `startRaises` models an exception out of `start_or_reuse_hls_job`;
`jobExists` is whether the registry already holds a record for the key (the
reuse case spawns nothing); `playlistReady` is the `wait_for_file_ready`
outcome. -/
def start_hls_model (srcIsFile : Bool) (probeResult : Option VideoInfo)
    (key : String) (completeExists errorExists : Bool)
    (startRaises : Bool) (jobExists : Bool) (playlistReady : Bool) :
    HlsResp × Bool :=
  if ¬ srcIsFile then (.notFound404, false)
  else
    match probeResult with
    | none => (.errJson "Not a video or audio file", false)
    | some _ =>
      if completeExists then (.playlist (playlistUrl key), false)
      else if errorExists then (.errJson "Transcode unavailable", false)
      else if startRaises then (.errJson "Error starting HLS job", false)
      else
        let spawned := !jobExists
        if playlistReady then (.playlist (playlistUrl key), spawned)
        else (.errJson "Transcode failed or timed out", spawned)

/-! ## Path encoding (encode_ospath / decode_ospath)

Python strings are lists of code points below 0x110000, possibly containing
lone surrogates produced by `os.fsdecode` (the `surrogateescape` handler maps
each undecodable byte `b >= 0x80` to the code point 0xDC00 + b).  Plain
`s.encode("utf-8")` succeeds iff the string holds no surrogate at all;
`s.encode("utf-8", errors="surrogateescape")` additionally turns the code
points 0xDC80-0xDCFF back into single bytes, and fails on any other
surrogate.  Encoding is per code point, so the run-based
`s[start:i].encode(...)` in `decode_ospath` equals the per-character
concatenation used here. -/

/-- True for code points on which `str.encode("utf-8")` (strict) succeeds. -/
def encodableCp (c : Nat) : Bool := c < 0xD800 || (0xE000 ≤ c && c < 0x110000)

/-- `s.encode("utf-8")` succeeds on the whole string. -/
def encodableStr (s : List Nat) : Bool := s.all encodableCp

/-- UTF-8 encoding of one code point under the `surrogateescape` error
handler; `none` models UnicodeEncodeError. -/
def utf8EncodeCharSE (c : Nat) : Option (List Nat) :=
  if c < 0x80 then some [c]
  else if c < 0x800 then some [0xC0 + c / 64, 0x80 + c % 64]
  else if c < 0xD800 then
    some [0xE0 + c / 4096, 0x80 + (c / 64) % 64, 0x80 + c % 64]
  else if c < 0xDC80 then none
  else if c < 0xDD00 then some [c - 0xDC00]
  else if c < 0xE000 then none
  else if c < 0x10000 then
    some [0xE0 + c / 4096, 0x80 + (c / 64) % 64, 0x80 + c % 64]
  else if c < 0x110000 then
    some [0xF0 + c / 262144, 0x80 + (c / 4096) % 64, 0x80 + (c / 64) % 64,
      0x80 + c % 64]
  else none

/-- `s.encode("utf-8", errors="surrogateescape")` over a whole string. -/
def utf8EncodeSE : List Nat → Option (List Nat)
  | [] => some []
  | c :: r =>
    match utf8EncodeCharSE c, utf8EncodeSE r with
    | some bs, some rest => some (bs ++ rest)
    | _, _ => none

/-- Is `b` a UTF-8 continuation byte? -/
def isCont (b : Nat) : Bool := 0x80 ≤ b && b ≤ 0xBF

/-- One step of UTF-8 decoding with `surrogateescape`: from the first byte
and the remaining bytes, the produced code point and the bytes left.  The
validity conditions are CPython's (no overlong forms, no encoded surrogates,
at most U+10FFFF); a byte that starts no valid sequence is escaped alone to
0xDC00 + b, which byte-for-byte matches the decoder's maximal-subpart error
handling since every byte inside a rejected subpart also starts no valid
sequence. -/
def decodeOne (b : Nat) (rest : List Nat) : Nat × List Nat :=
  if b < 0x80 then (b, rest)
  else
    match rest with
    | [] => (0xDC00 + b, rest)
    | b1 :: r1 =>
      if 0xC2 ≤ b ∧ b ≤ 0xDF ∧ isCont b1 then
        ((b - 0xC0) * 64 + (b1 - 0x80), r1)
      else
        match r1 with
        | [] => (0xDC00 + b, rest)
        | b2 :: r2 =>
          if 0xE0 ≤ b ∧ b ≤ 0xEF ∧ isCont b1 ∧ isCont b2 ∧
              (b = 0xE0 → 0xA0 ≤ b1) ∧ (b = 0xED → b1 ≤ 0x9F) then
            ((b - 0xE0) * 4096 + (b1 - 0x80) * 64 + (b2 - 0x80), r2)
          else
            match r2 with
            | [] => (0xDC00 + b, rest)
            | b3 :: r3 =>
              if 0xF0 ≤ b ∧ b ≤ 0xF4 ∧ isCont b1 ∧ isCont b2 ∧ isCont b3 ∧
                  (b = 0xF0 → 0x90 ≤ b1) ∧ (b = 0xF4 → b1 ≤ 0x8F) then
                ((b - 0xF0) * 262144 + (b1 - 0x80) * 4096 +
                  (b2 - 0x80) * 64 + (b3 - 0x80), r3)
              else (0xDC00 + b, rest)

/-- UTF-8 decoding with `surrogateescape`, fuel-structured so that it reduces
by `decide`; each step consumes at least one byte, so fuel equal to the byte
count never runs out. -/
def utf8DecodeSEAux : Nat → List Nat → List Nat
  | 0, _ => []
  | _, [] => []
  | fuel + 1, b :: rest =>
    let p := decodeOne b rest
    p.1 :: utf8DecodeSEAux fuel p.2

/-- `bytes.decode("utf-8", errors="surrogateescape")`. -/
def utf8DecodeSE (l : List Nat) : List Nat := utf8DecodeSEAux l.length l

/-- Does `l` start with the pattern `p`?  (Python `s.startswith(...)` /
pathlib's `relative_to` containment test, both purely lexical.) -/
def hasStart {α : Type} [BEq α] : List α → List α → Bool
  | [], _ => true
  | _ :: _, [] => false
  | a :: as, b :: bs => a == b && hasStart as bs

/-- The marker `~~OSPATH~~` as code points. -/
def ospathMarker : List Nat :=
  [0x7E, 0x7E, 0x4F, 0x53, 0x50, 0x41, 0x54, 0x48, 0x7E, 0x7E]

/-- Upper-case hex digit for a nibble, as in Python's `f"~{byte:02X}"`. -/
def hexDigitUpper (d : Nat) : Nat :=
  if d < 10 then 0x30 + d else 0x41 + (d - 10)

/-- Escaped form of one byte of the surrogateescape encoding:
`"~7E" if byte == 0x7E else chr(byte) if byte < 0x80 else f"~{byte:02X}"`. -/
def escapeByte (b : Nat) : List Nat :=
  if b = 0x7E then [0x7E, 0x37, 0x45]
  else if b < 0x80 then [b]
  else [0x7E, hexDigitUpper (b / 16), hexDigitUpper (b % 16)]

/-- The `"".join(... for byte in b)` of `encode_ospath`. -/
def escapeBytes (bs : List Nat) : List Nat := bs.flatMap escapeByte

/-- Shallow embedding of `encode_ospath`; `none` models an uncaught
UnicodeEncodeError out of the surrogateescape encode. -/
def encode_ospath (s : List Nat) : Option (List Nat) :=
  if encodableStr s then some s
  else (utf8EncodeSE s).map fun bs => ospathMarker ++ escapeBytes bs

/-- Value of `int(h, 16)` on one hex-digit character, `none` when not a hex
digit (the source then raises ValueError). -/
def hexVal (c : Nat) : Option Nat :=
  if 0x30 ≤ c ∧ c ≤ 0x39 then some (c - 0x30)
  else if 0x41 ≤ c ∧ c ≤ 0x46 then some (c - 0x41 + 10)
  else if 0x61 ≤ c ∧ c ≤ 0x66 then some (c - 0x61 + 10)
  else none

/-- The unescape loop of `decode_ospath`, producing the byte array `out`.
A tilde must be followed by two characters that parse as hex (otherwise
ValueError, modelled as `none`); any other character is encoded back to bytes
with the surrogateescape handler. -/
def unescapeBytes : List Nat → Option (List Nat)
  | [] => some []
  | c :: rest =>
    if c = 0x7E then
      match rest with
      | h1 :: h2 :: rest2 =>
        match hexVal h1, hexVal h2 with
        | some v1, some v2 =>
          (unescapeBytes rest2).map fun out => (v1 * 16 + v2) :: out
        | _, _ => none
      | _ => none
    else
      match utf8EncodeCharSE c, unescapeBytes rest with
      | some bs, some out => some (bs ++ out)
      | _, _ => none

/-- Shallow embedding of `decode_ospath`; `none` models a raised ValueError
or UnicodeEncodeError. -/
def decode_ospath (s : List Nat) : Option (List Nat) :=
  if hasStart ospathMarker s then
    (unescapeBytes (s.drop ospathMarker.length)).map utf8DecodeSE
  else some s

/-! ## Virtual path resolution (safe_path)

Virtual paths, root names and path segments are code-point lists; an absolute
filesystem path is its list of segments.  The registered roots were resolved
at startup (`Path(d).resolve()`), so base paths are canonical: no empty,
`.` or `..` segments.  `Path.resolve()` on a symlink-free path and pathlib's
lexical normalization are modelled by `resolveSegs`: empty and `.` segments
vanish, `..` drops the last segment (at the filesystem root it is a no-op,
which `List.dropLast [] = []` matches). -/

/-- `vp.split("/", 1)`: the part before the first slash and, when a slash is
present, the rest (which may itself contain slashes). -/
def splitFirst : List Nat → List Nat × Option (List Nat)
  | [] => ([], none)
  | c :: r =>
    if c = 0x2F then ([], some r)
    else
      let p := splitFirst r
      (c :: p.1, p.2)

/-- Split a path string into segments at every slash. -/
def splitSlash : List Nat → List (List Nat)
  | [] => [[]]
  | c :: r =>
    if c = 0x2F then [] :: splitSlash r
    else
      match splitSlash r with
      | s :: rest => (c :: s) :: rest
      | [] => [[c]]

/-- Lexical canonicalization of `acc` extended by the given segments:
pathlib drops empty and `.` parts, and `resolve()` folds `..` into the
accumulated absolute path. -/
def resolveSegs (acc : List (List Nat)) : List (List Nat) → List (List Nat)
  | [] => acc
  | s :: r =>
    if s = [] then resolveSegs acc r
    else if s = [0x2E] then resolveSegs acc r
    else if s = [0x2E, 0x2E] then resolveSegs acc.dropLast r
    else resolveSegs (acc ++ [s]) r

inductive PathErr
  | invalidPath
deriving DecidableEq, Repr

/-- The `candidate` computed by `safe_path`: the base itself when the virtual
path has no tail, otherwise `(base / rest).resolve()` — where joining an
absolute remainder replaces the base, as `Path.__truediv__` does. -/
def candidateFor (base : List (List Nat)) : Option (List Nat) → List (List Nat)
  | none => base
  | some t =>
    if t.head? = some 0x2F then resolveSegs [] (splitSlash t)
    else resolveSegs base (splitSlash t)

/-- Shallow embedding of `safe_path`.  `vmap` is `appstate.virtual_map` as an
association list from root name to the root's canonical absolute segments.
Every exception of the body — decode failure, unknown-root KeyError, and the
ValueError out of `candidate.relative_to(base)` — is caught and surfaces as
the single InvalidPath error (an HTTP 404 in the handler). -/
def safe_path (vmap : List (List Nat × List (List Nat)))
    (virtual_path : List Nat) : Except PathErr (List (List Nat)) :=
  match decode_ospath virtual_path with
  | none => .error .invalidPath
  | some vp =>
    match vmap.lookup (splitFirst vp).1 with
    | none => .error .invalidPath
    | some base =>
      if hasStart base (candidateFor base (splitFirst vp).2) then
        .ok (candidateFor base (splitFirst vp).2)
      else .error .invalidPath

/-! ## Helper lemmas -/

theorem hasStart_iff {α : Type} [BEq α] [LawfulBEq α] (p l : List α) :
    hasStart p l = true ↔ ∃ t, l = p ++ t := by
  induction p generalizing l with
  | nil => simp [hasStart]
  | cons a as ih =>
    cases l with
    | nil => simp [hasStart]
    | cons b bs =>
      rw [hasStart]
      simp only [Bool.and_eq_true, beq_iff_eq, ih, List.cons_append,
        List.cons.injEq]
      constructor
      · rintro ⟨rfl, t, rfl⟩; exact ⟨t, rfl, rfl⟩
      · rintro ⟨t, rfl, rfl⟩; exact ⟨rfl, t, rfl⟩

/-! ## Claim C1: marker files of a transcode job directory -/

/-- Claim C1, refuted: after the first start and an ffmpeg exit with code 1
(non-zero, non-signal, non-255), the job directory holds two markers —
`error` is touched while `incomplete` is left in place — not exactly one. -/
theorem c1_counterexample :
    markerCount (on_finish 1 markersAfterStart) = 2 ∧
    ¬ markerCount (on_finish 1 markersAfterStart) = 1 := by decide

/-- Claim C1 (corrected): after the first start the directory holds exactly
the `incomplete` marker; after the watcher processes exit code `rc`, exactly
one of `incomplete`/`complete` is present (a zero exit renames `incomplete`
to `complete`, leaving `complete` alone), and the `error` marker is present
precisely when `rc` is positive and not 255 — in which case it sits alongside
`incomplete`. -/
theorem c1_amended (rc : Int) :
    markerCount markersAfterStart = 1 ∧
    markersAfterStart.incomplete = true ∧
    (on_finish rc markersAfterStart).incomplete
      = !(on_finish rc markersAfterStart).complete ∧
    ((on_finish rc markersAfterStart).error = true ↔ 0 < rc ∧ rc ≠ 255) ∧
    (rc = 0 → on_finish rc markersAfterStart = ⟨false, true, false⟩) := by
  refine ⟨by decide, by decide, ?_, ?_, ?_⟩ <;>
    · unfold on_finish markersAfterStart
      split_ifs <;> simp_all <;> omega

/-- Witness for c1_amended at the concrete exit code 3. -/
theorem c1_witness : (on_finish 3 markersAfterStart).error = true :=
  (c1_amended 3).2.2.2.1.mpr (by decide)

/-! ## Claim C2: list-batch not_modified condition -/

/-- Claim C2, refuted: with `since` present and equal to 0 and the directory
mtime 0, `dir.mtime ≤ since` holds, yet the handler returns the full listing
(`not_modified: false`) because Python's `if client_mtime and ...` treats the
present value 0 as absent. -/
theorem c2_counterexample :
    listBatchEntry (some 0) (some 0) [] = .listing 0 [] ∧
    listBatchEntry (some 0) (some 0) [] ≠ .notModified ∧
    (some (0 : Rat)).isSome = true ∧ (0 : Rat) ≤ 0 := by
  refine ⟨by decide, by decide, by decide, by norm_num⟩

/-- Claim C2 (corrected): for an existing directory the response value is
`{not_modified: true}` iff the `since` field is present, nonzero (truthy),
and the directory mtime is at most `since`; in every other case it is the
full listing with the directory mtime. -/
theorem c2_amended (m : Rat) (since : Option Rat) (files : List FileEntry) :
    (listBatchEntry (some m) since files = .notModified ↔
      ∃ s, since = some s ∧ s ≠ 0 ∧ m ≤ s) ∧
    (listBatchEntry (some m) since files ≠ .notModified →
      listBatchEntry (some m) since files = .listing m files) := by
  cases since with
  | none => simp [listBatchEntry]
  | some s =>
    simp only [listBatchEntry]
    constructor
    · split_ifs with h <;> simp_all
    · split_ifs with h <;> simp_all

/-- Witness for c2_amended: since = 7, mtime = 5 gives not_modified. -/
theorem c2_witness : listBatchEntry (some 5) (some 7) [] = .notModified :=
  (c2_amended 5 (some 7) []).1.mpr ⟨7, rfl, by norm_num, by norm_num⟩

/-! ## Claim C5: fresh cached thumbnail is not regenerated -/

/-- Claim C5 (confirmed): when the source is a regular file and the cached
thumbnail exists with mtime at least the source mtime, `ensure_thumb` invokes
no generator and writes no sentinel; it returns the ok status (the thumbnail
path) when the cached file is non-empty and the cached-failure status when it
is empty. -/
theorem c5_fresh_thumb (e : ThumbEnv) (h1 : e.srcIsFile = true)
    (h2 : e.dstExists = true) (h3 : e.srcMtime ≤ e.dstMtime) :
    ensure_thumb e =
      ⟨if e.dstSize > 0 then .ok else .error, false, false, false⟩ := by
  unfold ensure_thumb
  rw [if_neg (by simp [h1]), if_pos ⟨by simp [h2], h3⟩]
  split_ifs <;> rfl

/-- Witness for c5_fresh_thumb: fresh non-empty thumbnail is served. -/
theorem c5_witness :
    ensure_thumb ⟨true, 1, true, 2, 7, true, false, true, true⟩ =
      ⟨.ok, false, false, false⟩ := by
  have h := c5_fresh_thumb ⟨true, 1, true, 2, 7, true, false, true, true⟩
    rfl rfl (by norm_num)
  simpa using h

/-! ## Claim C6: failed generation writes the zero-byte sentinel -/

/-- Claim C6 (confirmed): for a regular source file with no fresh cached
thumbnail, a failed generation writes the zero-byte sentinel at
`thumb_path(src)` and returns the cached-failure status; for a source that is
not a regular file, `ensure_thumb` returns src-not-found and writes nothing. -/
theorem c6_failure_sentinel (e : ThumbEnv) (h1 : e.srcIsFile = true)
    (h2 : ¬ (e.dstExists = true ∧ e.srcMtime ≤ e.dstMtime))
    (h3 : (if e.srcIsImage then e.genImageOk
           else if e.srcIsVideo then e.genVideoOk else false) = false) :
    ensure_thumb e =
      ⟨.error, e.srcIsImage, !e.srcIsImage && e.srcIsVideo, true⟩ ∧
    ∀ e' : ThumbEnv, e'.srcIsFile = false →
      ensure_thumb e' = ⟨.src_not_found, false, false, false⟩ := by
  constructor
  · unfold ensure_thumb
    rw [if_neg (by simp [h1]), if_neg (by simpa using h2)]
    simp only [h3]
    rfl
  · intro e' he'
    unfold ensure_thumb
    rw [if_pos (by simp [he'])]

/-- Witness for c6_failure_sentinel: a video source whose transcoder call
fails gets the sentinel; a missing source gets src-not-found. -/
theorem c6_witness :
    ensure_thumb ⟨true, 5, false, 0, 0, false, true, true, false⟩ =
      ⟨.error, false, true, true⟩ ∧
    ensure_thumb ⟨false, 0, false, 0, 0, false, false, false, false⟩ =
      ⟨.src_not_found, false, false, false⟩ := by
  have h := c6_failure_sentinel ⟨true, 5, false, 0, 0, false, true, true, false⟩
    rfl (by decide) rfl
  exact ⟨by simpa using h.1, h.2 _ rfl⟩

/-! ## Claim C7: stream selection -/

/-- Claim C7 (confirmed): `choose_stream` returns the first stream in probe
order whose codec lies in the preferred set, else the first stream of the
list, else none on an empty list. -/
theorem c7_choose_stream (streams : List StreamInfo) (preferred : List String) :
    choose_stream streams preferred =
      (match streams.find? (fun s => decide (s.codec ∈ preferred)) with
       | some s => some s
       | none => streams.head?) ∧
    (streams = [] → choose_stream streams preferred = none) := by
  constructor
  · unfold choose_stream
    have hloop : chooseLoop streams preferred
        = streams.find? (fun s => decide (s.codec ∈ preferred)) := by
      induction streams with
      | nil => rfl
      | cons a t ih =>
        rw [chooseLoop]
        by_cases h : a.codec ∈ preferred <;>
          simp [List.find?, h, ih]
    rw [hloop]
  · intro h; subst h; rfl

/-- Witness for c7_choose_stream: empty list gives none; a preferred codec in
second position beats the first stream. -/
theorem c7_witness :
    choose_stream [] ["h264"] = none ∧
    choose_stream [⟨"vp9", 0⟩, ⟨"h264", 1⟩] ["h264", "avc1"] =
      some ⟨"h264", 1⟩ := by
  refine ⟨(c7_choose_stream [] ["h264"]).2 rfl, ?_⟩
  have h := (c7_choose_stream [⟨"vp9", 0⟩, ⟨"h264", 1⟩] ["h264", "avc1"]).1
  rw [h]; decide

/-! ## Claim C8: the reaper removes every idle record -/

/-- Claim C8 (confirmed): after one reaper iteration, every surviving
registry entry was already present and has idle time at most
`HLS_IDLE_TIMEOUT`; equivalently, every record idle for more than the
timeout has been removed — and this holds for every outcome `kr` of the
kill/wait attempts, whose exceptions are swallowed before the deletion. -/
theorem c8_reap (now : Rat) (kr : String → Bool)
    (jobs : List (String × HLSJobRec)) (e : String × HLSJobRec)
    (h : e ∈ reap_once now kr jobs) :
    e ∈ jobs ∧ now - e.2.last_access ≤ HLS_IDLE_TIMEOUT := by
  unfold reap_once at h
  rw [List.mem_filterMap] at h
  obtain ⟨kj, hkj, hmap⟩ := h
  unfold reapEntry at hmap
  split_ifs at hmap with hidle
  · simp at hmap
  · have he : kj = e := by simpa using hmap
    subst he
    exact ⟨hkj, not_lt.mp hidle⟩

/-- Witness for c8_reap: a record accessed 10 s ago survives the sweep even
when the kill path would raise. -/
theorem c8_witness :
    ("a", (⟨100, false⟩ : HLSJobRec)) ∈
      [("a", (⟨100, false⟩ : HLSJobRec))] ∧
    (110 : Rat) - (⟨100, false⟩ : HLSJobRec).last_access ≤ HLS_IDLE_TIMEOUT :=
  c8_reap 110 (fun _ => true) [("a", ⟨100, false⟩)] ("a", ⟨100, false⟩)
    (by norm_num [reap_once, reapEntry, HLS_IDLE_TIMEOUT, List.filterMap])

/-! ## Claim C9: marker short-circuits in start_hls -/

/-- Claim C9, refuted: when both the `complete` and the `error` marker are
present, the handler returns the playlist URL (the `complete` check comes
first), not the `{error}` JSON the claim requires for any state with an
`error` marker. -/
theorem c9_counterexample :
    start_hls_model true (some ⟨"mp4", [], []⟩) "k" true true false false true =
      (.playlist "/hls/k/index.m3u8", false) ∧
    (start_hls_model true (some ⟨"mp4", [], []⟩) "k" true true false false
        true).1 ≠ .errJson "Transcode unavailable" := by
  constructor <;> decide

/-- Claim C9 (corrected): for a resolvable, probeable source, a `complete`
marker makes `start_hls` return the playlist URL immediately without spawning
a subprocess; an `error` marker — when no `complete` marker is present —
makes it return the `{error}` JSON, also without spawning. -/
theorem c9_amended (srcIsFile : Bool) (probeResult : Option VideoInfo)
    (key : String) (c err sr je pr : Bool)
    (h1 : srcIsFile = true) (h2 : probeResult.isSome = true) :
    (c = true →
      start_hls_model srcIsFile probeResult key c err sr je pr =
        (.playlist (playlistUrl key), false)) ∧
    (c = false → err = true →
      start_hls_model srcIsFile probeResult key c err sr je pr =
        (.errJson "Transcode unavailable", false)) := by
  subst h1
  obtain ⟨v, rfl⟩ := Option.isSome_iff_exists.mp h2
  constructor
  · intro hc; subst hc; rfl
  · intro hc herr; subst hc; subst herr; rfl

/-- Witness for c9_amended at concrete marker states. -/
theorem c9_witness :
    start_hls_model true (some ⟨"mp4", [], []⟩) "k" true false false false
      false = (.playlist (playlistUrl "k"), false) ∧
    start_hls_model true (some ⟨"mp4", [], []⟩) "k" false true false false
      false = (.errJson "Transcode unavailable", false) :=
  ⟨(c9_amended true (some ⟨"mp4", [], []⟩) "k" true false false false false
      rfl rfl).1 rfl,
   (c9_amended true (some ⟨"mp4", [], []⟩) "k" false true false false false
      rfl rfl).2 rfl rfl⟩

/-! ## Claim C10: non-positive timeout never reports readiness -/

/-- Claim C10 (confirmed): with a monotone clock and a timeout at most zero,
`wait_for_file_ready` returns false for every readiness oracle — even one
that is ready at every poll — because the deadline is computed from a reading
taken no later than the first loop test. -/
theorem c10_nonpos_timeout (ready : Nat → Bool) (clock : Nat → Rat)
    (timeout : Rat) (fuel : Nat)
    (hmono : ∀ i j, i ≤ j → clock i ≤ clock j) (ht : timeout ≤ 0) :
    wait_for_file_ready ready clock timeout fuel = false := by
  unfold wait_for_file_ready
  cases fuel with
  | zero => rfl
  | succ n =>
    rw [waitLoop, if_neg]
    have h01 := hmono 0 1 (by omega)
    exact not_lt.mpr (by linarith)

/-- Witness for c10_nonpos_timeout: a file that is ready at every poll is
still reported unready under timeout 0. -/
theorem c10_witness :
    wait_for_file_ready (fun _ => true) (fun i => (i : Rat)) 0 5 = false :=
  c10_nonpos_timeout _ _ 0 5
    (fun i j h => by exact_mod_cast h) le_rfl

/-! ## UTF-8 / surrogateescape round-trip lemmas -/

theorem encodeChar_ascii (b : Nat) (h : b < 0x80) :
    utf8EncodeCharSE b = some [b] := by
  unfold utf8EncodeCharSE
  rw [if_pos h]

theorem encodeChar_two (b b1 : Nat) (hb : 0xC2 ≤ b) (hb' : b ≤ 0xDF)
    (h1 : 0x80 ≤ b1) (h1' : b1 ≤ 0xBF) :
    utf8EncodeCharSE ((b - 0xC0) * 64 + (b1 - 0x80)) = some [b, b1] := by
  have e1 : 0xC0 + ((b - 0xC0) * 64 + (b1 - 0x80)) / 64 = b := by omega
  have e2 : 0x80 + ((b - 0xC0) * 64 + (b1 - 0x80)) % 64 = b1 := by omega
  unfold utf8EncodeCharSE
  split_ifs <;> first | omega | rw [e1, e2]

theorem encodeChar_three (b b1 b2 : Nat) (hb : 0xE0 ≤ b) (hb' : b ≤ 0xEF)
    (h1 : 0x80 ≤ b1) (h1' : b1 ≤ 0xBF) (h2 : 0x80 ≤ b2) (h2' : b2 ≤ 0xBF)
    (hlo : b = 0xE0 → 0xA0 ≤ b1) (hsur : b = 0xED → b1 ≤ 0x9F) :
    utf8EncodeCharSE ((b - 0xE0) * 4096 + (b1 - 0x80) * 64 + (b2 - 0x80)) =
      some [b, b1, b2] := by
  set c := (b - 0xE0) * 4096 + (b1 - 0x80) * 64 + (b2 - 0x80) with hc
  have hge : 0x800 ≤ c := by
    by_cases he : b = 0xE0
    · have := hlo he; omega
    · omega
  have hnotsur : c < 0xD800 ∨ 0xE000 ≤ c := by
    by_cases he : b = 0xED
    · have := hsur he; omega
    · omega
  have e1 : 0xE0 + c / 4096 = b := by omega
  have e2 : 0x80 + c / 64 % 64 = b1 := by omega
  have e3 : 0x80 + c % 64 = b2 := by omega
  unfold utf8EncodeCharSE
  split_ifs <;> first | omega | rw [e1, e2, e3]

theorem encodeChar_four (b b1 b2 b3 : Nat) (hb : 0xF0 ≤ b) (hb' : b ≤ 0xF4)
    (h1 : 0x80 ≤ b1) (h1' : b1 ≤ 0xBF) (h2 : 0x80 ≤ b2) (h2' : b2 ≤ 0xBF)
    (h3 : 0x80 ≤ b3) (h3' : b3 ≤ 0xBF)
    (hlo : b = 0xF0 → 0x90 ≤ b1) (hhi : b = 0xF4 → b1 ≤ 0x8F) :
    utf8EncodeCharSE ((b - 0xF0) * 262144 + (b1 - 0x80) * 4096 +
      (b2 - 0x80) * 64 + (b3 - 0x80)) = some [b, b1, b2, b3] := by
  set c := (b - 0xF0) * 262144 + (b1 - 0x80) * 4096 + (b2 - 0x80) * 64 +
    (b3 - 0x80) with hc
  have hge : 0x10000 ≤ c := by
    by_cases he : b = 0xF0
    · have := hlo he; omega
    · omega
  have hlt : c < 0x110000 := by
    by_cases he : b = 0xF4
    · have := hhi he; omega
    · omega
  have e1 : 0xF0 + c / 262144 = b := by omega
  have e2 : 0x80 + c / 4096 % 64 = b1 := by omega
  have e3 : 0x80 + c / 64 % 64 = b2 := by omega
  have e4 : 0x80 + c % 64 = b3 := by omega
  unfold utf8EncodeCharSE
  split_ifs <;> first | omega | rw [e1, e2, e3, e4]

theorem encodeChar_escape (b : Nat) (h1 : 0x80 ≤ b) (h2 : b < 0x100) :
    utf8EncodeCharSE (0xDC00 + b) = some [b] := by
  have e : 0xDC00 + b - 0xDC00 = b := by omega
  unfold utf8EncodeCharSE
  split_ifs <;> first | omega | rw [e]

theorem decodeOne_spec (b : Nat) (rest : List Nat) (hb : b < 256) :
    ∃ k, utf8EncodeCharSE (decodeOne b rest).1 = some k ∧
      k ++ (decodeOne b rest).2 = b :: rest ∧
      (decodeOne b rest).2.length ≤ rest.length := by
  unfold decodeOne
  split
  next h80 => exact ⟨[b], encodeChar_ascii b h80, rfl, Nat.le_refl _⟩
  next h80 =>
    split
    next => exact ⟨[b], encodeChar_escape b (by omega) (by omega), rfl,
      Nat.le_refl _⟩
    next b1 r1 =>
      split
      next h2 =>
        obtain ⟨hb1, hb2, hcont⟩ := h2
        simp only [isCont, Bool.and_eq_true, decide_eq_true_eq] at hcont
        exact ⟨[b, b1], encodeChar_two b b1 hb1 hb2 hcont.1 hcont.2, rfl,
          by simp⟩
      next h2 =>
        split
        next => exact ⟨[b], encodeChar_escape b (by omega) (by omega), rfl,
          Nat.le_refl _⟩
        next b2 r2 =>
          split
          next h3 =>
            obtain ⟨hb1, hb2, hc1, hc2, hlo, hsur⟩ := h3
            simp only [isCont, Bool.and_eq_true, decide_eq_true_eq]
              at hc1 hc2
            exact ⟨[b, b1, b2],
              encodeChar_three b b1 b2 hb1 hb2 hc1.1 hc1.2 hc2.1 hc2.2
                hlo hsur, rfl, by simp; omega⟩
          next h3 =>
            split
            next => exact ⟨[b], encodeChar_escape b (by omega) (by omega),
              rfl, Nat.le_refl _⟩
            next b3 r3 =>
              split
              next h4 =>
                obtain ⟨hb1, hb2, hc1, hc2, hc3, hlo, hhi⟩ := h4
                simp only [isCont, Bool.and_eq_true, decide_eq_true_eq]
                  at hc1 hc2 hc3
                exact ⟨[b, b1, b2, b3],
                  encodeChar_four b b1 b2 b3 hb1 hb2 hc1.1 hc1.2 hc2.1
                    hc2.2 hc3.1 hc3.2 hlo hhi, rfl, by simp; omega⟩
              next h4 =>
                exact ⟨[b], encodeChar_escape b (by omega) (by omega), rfl,
                  Nat.le_refl _⟩

theorem decodeAux_encode (fuel : Nat) :
    ∀ l : List Nat, l.length ≤ fuel → (∀ x ∈ l, x < 256) →
      utf8EncodeSE (utf8DecodeSEAux fuel l) = some l := by
  induction fuel with
  | zero =>
    intro l hl _
    have : l = [] := List.length_eq_zero.mp (Nat.le_zero.mp hl)
    subst this
    rfl
  | succ n ih =>
    intro l hl hx
    cases l with
    | nil => rfl
    | cons b rest =>
      obtain ⟨k, hk, hkr, hlen⟩ := decodeOne_spec b rest (hx b (by simp))
      show utf8EncodeSE
        ((decodeOne b rest).1 :: utf8DecodeSEAux n (decodeOne b rest).2)
        = some (b :: rest)
      rw [utf8EncodeSE, hk, ih (decodeOne b rest).2 ?_ ?_]
      · show some (k ++ (decodeOne b rest).2) = some (b :: rest)
        rw [hkr]
      · simp only [List.length_cons] at hl
        omega
      · intro x hxr
        have hm : x ∈ k ++ (decodeOne b rest).2 :=
          List.mem_append.mpr (Or.inr hxr)
        rw [hkr] at hm
        exact hx x hm

theorem utf8DecodeSE_encode (l : List Nat) (hl : ∀ x ∈ l, x < 256) :
    utf8EncodeSE (utf8DecodeSE l) = some l :=
  decodeAux_encode l.length l (Nat.le_refl _) hl

theorem hexVal_hexDigitUpper : ∀ d < 16, hexVal (hexDigitUpper d) = some d := by
  decide

theorem unescapeBytes_cons_ne (c : Nat) (rest : List Nat) (h : c ≠ 0x7E) :
    unescapeBytes (c :: rest) =
      match utf8EncodeCharSE c, unescapeBytes rest with
      | some bs, some out => some (bs ++ out)
      | _, _ => none := by
  cases rest with
  | nil => simp [unescapeBytes, h]
  | cons h1 t1 =>
    cases t1 with
    | nil => simp [unescapeBytes, h]
    | cons h2 t2 => simp [unescapeBytes, h]

theorem unescapeBytes_tilde (h1 h2 : Nat) (rest2 : List Nat) :
    unescapeBytes (0x7E :: h1 :: h2 :: rest2) =
      match hexVal h1, hexVal h2 with
      | some v1, some v2 =>
        (unescapeBytes rest2).map fun out => (v1 * 16 + v2) :: out
      | _, _ => none := by
  simp [unescapeBytes]

theorem unescape_escape :
    ∀ bs : List Nat, (∀ x ∈ bs, x < 256) →
      unescapeBytes (escapeBytes bs) = some bs := by
  intro bs
  induction bs with
  | nil => intro _; rfl
  | cons b t ih =>
    intro h
    have hb : b < 256 := h b (List.mem_cons_self b t)
    have iht := ih fun x hx => h x (List.mem_cons_of_mem b hx)
    show unescapeBytes (escapeByte b ++ escapeBytes t) = some (b :: t)
    by_cases h7e : b = 0x7E
    · subst h7e
      show unescapeBytes (0x7E :: 0x37 :: 0x45 :: escapeBytes t)
        = some (0x7E :: t)
      rw [unescapeBytes_tilde]
      show (unescapeBytes (escapeBytes t)).map (fun out => 0x7E :: out)
        = some (0x7E :: t)
      rw [iht]
      rfl
    · by_cases hlt : b < 0x80
      · have he : escapeByte b = [b] := by
          unfold escapeByte
          rw [if_neg h7e, if_pos hlt]
        rw [he]
        show unescapeBytes (b :: escapeBytes t) = some (b :: t)
        rw [unescapeBytes_cons_ne b _ h7e]
        simp [encodeChar_ascii b hlt, iht]
      · have he : escapeByte b
            = [0x7E, hexDigitUpper (b / 16), hexDigitUpper (b % 16)] := by
          unfold escapeByte
          rw [if_neg h7e, if_neg hlt]
        rw [he]
        show unescapeBytes (0x7E :: hexDigitUpper (b / 16) ::
          hexDigitUpper (b % 16) :: escapeBytes t) = some (b :: t)
        rw [unescapeBytes_tilde]
        have e : b / 16 * 16 + b % 16 = b := by omega
        simp [hexVal_hexDigitUpper (b / 16) (by omega),
          hexVal_hexDigitUpper (b % 16) (by omega), iht, e]

/-! ## Claim C3: the ospath escape scheme -/

/-- Claim C3, refuted: the plain ASCII name `~~OSPATH~~A` is valid UTF-8, so
`encode_ospath` passes it through unchanged, but `decode_ospath` then takes
it for an escaped form, strips the marker and returns `A`: the round trip
loses the original string. -/
theorem c3_counterexample :
    (encode_ospath (ospathMarker ++ [0x41])).bind decode_ospath
      = some [0x41] ∧
    ospathMarker ++ [0x41] ≠ [0x41] := by
  constructor
  · rfl
  · decide

/-- Claim C3 (corrected): for every name the server can see — the
surrogateescape decoding of some byte sequence — that does not itself begin
with the `~~OSPATH~~` marker, `decode_ospath (encode_ospath name)` returns
the name unchanged; every string whose strict UTF-8 encoding succeeds passes
through `encode_ospath` unchanged; and in the escaped form each byte at least
0x80 becomes `~HH` with upper-case hex digits while the byte 0x7E becomes the
three characters `~7E`. -/
theorem c3_amended (l : List Nat) (hl : ∀ x ∈ l, x < 256)
    (hpre : hasStart ospathMarker (utf8DecodeSE l) = false)
    (s : List Nat) (hs : encodableStr s = true)
    (b : Nat) (hb1 : 0x80 ≤ b) (hb2 : b < 256) :
    (encode_ospath (utf8DecodeSE l)).bind decode_ospath
      = some (utf8DecodeSE l) ∧
    encode_ospath s = some s ∧
    escapeByte b = [0x7E, hexDigitUpper (b / 16), hexDigitUpper (b % 16)] ∧
    (0x30 ≤ hexDigitUpper (b / 16) ∧ hexDigitUpper (b / 16) ≤ 0x39 ∨
      0x41 ≤ hexDigitUpper (b / 16) ∧ hexDigitUpper (b / 16) ≤ 0x46) ∧
    (0x30 ≤ hexDigitUpper (b % 16) ∧ hexDigitUpper (b % 16) ≤ 0x39 ∨
      0x41 ≤ hexDigitUpper (b % 16) ∧ hexDigitUpper (b % 16) ≤ 0x46) ∧
    escapeByte 0x7E = [0x7E, 0x37, 0x45] := by
  refine ⟨?_, ?_, ?_, ?_, ?_, rfl⟩
  · by_cases henc : encodableStr (utf8DecodeSE l) = true
    · rw [encode_ospath, if_pos henc]
      show decode_ospath (utf8DecodeSE l) = some (utf8DecodeSE l)
      rw [decode_ospath, if_neg (by simp [hpre])]
    · rw [encode_ospath, if_neg henc, utf8DecodeSE_encode l hl]
      show decode_ospath (ospathMarker ++ escapeBytes l)
        = some (utf8DecodeSE l)
      rw [decode_ospath, if_pos ((hasStart_iff _ _).mpr ⟨_, rfl⟩)]
      rw [show (ospathMarker ++ escapeBytes l).drop ospathMarker.length
        = escapeBytes l from by simp]
      rw [unescape_escape l hl]
      rfl
  · rw [encode_ospath, if_pos hs]
  · unfold escapeByte
    rw [if_neg (by omega), if_neg (by omega)]
  · unfold hexDigitUpper
    split_ifs <;> omega
  · unfold hexDigitUpper
    split_ifs <;> omega

/-- Witness for c3_amended, at the single non-UTF-8 byte 0xFF (whose decoded
name is the lone surrogate 0xDCFF), the ASCII name `A`, and the byte 0x80. -/
theorem c3_witness :
    (encode_ospath (utf8DecodeSE [0xFF])).bind decode_ospath
      = some (utf8DecodeSE [0xFF]) ∧
    encode_ospath [0x41] = some [0x41] ∧
    escapeByte 0x80
      = [0x7E, hexDigitUpper (0x80 / 16), hexDigitUpper (0x80 % 16)] ∧
    (0x30 ≤ hexDigitUpper (0x80 / 16) ∧ hexDigitUpper (0x80 / 16) ≤ 0x39 ∨
      0x41 ≤ hexDigitUpper (0x80 / 16) ∧ hexDigitUpper (0x80 / 16) ≤ 0x46) ∧
    (0x30 ≤ hexDigitUpper (0x80 % 16) ∧ hexDigitUpper (0x80 % 16) ≤ 0x39 ∨
      0x41 ≤ hexDigitUpper (0x80 % 16) ∧ hexDigitUpper (0x80 % 16) ≤ 0x46) ∧
    escapeByte 0x7E = [0x7E, 0x37, 0x45] :=
  c3_amended [0xFF] (by decide) (by decide) [0x41] (by decide) 0x80
    (by decide) (by decide)

/-! ## Claim C4: safe_path containment -/

/-- Claim C4 (confirmed): whenever `safe_path` succeeds, the virtual path
decoded, its first segment named a registered root, and the returned path is
that root's base extended by some suffix (the base itself when the virtual
path has no tail); an unknown first segment is rejected, a failed decode is
rejected, and the only error ever produced is the single InvalidPath kind
(surfaced as 404) — in particular any resolution that escapes the root fails
the containment check and lands in the error case. -/
theorem c4_safe_path (vmap : List (List Nat × List (List Nat)))
    (vpath : List Nat) :
    (∀ p, safe_path vmap vpath = .ok p →
      ∃ vp base t, decode_ospath vpath = some vp ∧
        vmap.lookup (splitFirst vp).1 = some base ∧
        p = base ++ t ∧ ((splitFirst vp).2 = none → p = base)) ∧
    (∀ vp, decode_ospath vpath = some vp →
      vmap.lookup (splitFirst vp).1 = none →
      safe_path vmap vpath = .error .invalidPath) ∧
    (decode_ospath vpath = none →
      safe_path vmap vpath = .error .invalidPath) ∧
    (∀ e, safe_path vmap vpath = .error e → e = .invalidPath) := by
  refine ⟨?_, ?_, ?_, ?_⟩
  · intro p hp
    unfold safe_path at hp
    split at hp
    · exact absurd hp (by simp)
    next vp hdec =>
      split at hp
      · exact absurd hp (by simp)
      next base hlook =>
        split_ifs at hp with hst
        · simp only [Except.ok.injEq] at hp
          obtain ⟨t, ht⟩ := (hasStart_iff base _).mp hst
          refine ⟨vp, base, t, hdec, hlook, ?_, ?_⟩
          · rw [← hp, ht]
          · intro hnone
            rw [← hp, hnone]
            exact rfl
  · intro vp hdec hlook
    simp [safe_path, hdec, hlook]
  · intro hdec
    simp [safe_path, hdec]
  · intro e _
    cases e
    rfl

/-- Witness for c4_safe_path: the virtual path `p/x` over a root `p` mapped
to the absolute path `/a/p` resolves inside the root, and the escape attempt
`p/../..` is rejected. -/
theorem c4_witness :
    (∃ vp base t, decode_ospath [0x70, 0x2F, 0x78] = some vp ∧
      [([0x70], [[0x61], [0x70]])].lookup (splitFirst vp).1 = some base ∧
      [[0x61], [0x70], [0x78]] = base ++ t ∧
      ((splitFirst vp).2 = none → [[0x61], [0x70], [0x78]] = base)) ∧
    safe_path [([0x70], [[0x61], [0x70]])]
      [0x70, 0x2F, 0x2E, 0x2E, 0x2F, 0x2E, 0x2E] = .error .invalidPath :=
  ⟨(c4_safe_path [([0x70], [[0x61], [0x70]])] [0x70, 0x2F, 0x78]).1
      [[0x61], [0x70], [0x78]] rfl,
   rfl⟩

end MediaBrowser
